import Mathlib

/-!
Verification of the chronicle logging facade (src/chronicle/logger.py),
a thin wrapper around an external structured-logging sink.

The Python class `Logger` is embedded as a pure state-passing model:

* mutable session state (the `entity_prefix` attribute, the process-wide
  timeline coordinates consulted by the sink, and the stream of calls
  forwarded to the sink) becomes the structure `Chronicle.Logger`;
* each method becomes a function `Chronicle.Logger → ... → Chronicle.Logger`;
* the external sink (rerun) is modelled at the boundary: every forwarded
  call is recorded in the `sink` field; a log call carries the timeline
  coordinates that are current at the moment of the call, which is how the
  real sink stamps records;
* the generator-based context manager `Logger.context`, whose body runs
  between `yield` and the `finally` that restores the saved value, is
  modelled by `contextRun`, whose body either returns a final state or
  raises carrying the state at the point of the raise; the `finally`
  restoration is applied on both exit paths (an early `return` inside a
  Python `with` block also runs the `finally`, hence is the normal-exit
  branch here).
-/

namespace Chronicle

/-- Typed view of the `config` dictionary read by `Logger.__init__`.
`save_path := some ""` models the key being present with an empty-string
value (present but falsy in Python). -/
structure Config where
  spawn_viewer : Option Bool
  save_path : Option String
deriving Repr

/-- Typed log records forwarded to the sink (rerun archetypes). -/
inductive Record where
  | textLog (message : String) (level : String)
  | scalars (value : Float)
  | textDocument (content : String) (mediaType : String)

/-- One call forwarded to the external sink. `log` carries the timeline
coordinates current at the moment of the call, since that is how the sink
stamps records (rr.log attaches the current time of every timeline). -/
inductive SinkCall where
  | init (application_id : String) (spawn : Bool)
  | save (path : String)
  | log (path : String) (record : Record) (times : List (String × Int))

/-- Session state of the Python `Logger` object.  `prefixStr` models the
mutable `entity_prefix` attribute; `timelines` models the process-wide
time-coordinate state (sequence timelines) of the sink; `sink` is the
stream of calls forwarded to the sink so far. -/
structure Logger where
  application_id : String
  prefixStr : String
  timelines : List (String × Int)
  sink : List SinkCall

/-- Python `entity_prefix or ""`: `None` and the empty string both give
the empty string; a non-empty string gives itself. -/
def pyOr (o : Option String) : String :=
  match o with
  | none => ""
  | some s => if s = "" then "" else s

/-- Python `str.strip("/")` on a character list: drop the run of slash
characters at the front and the run of slash characters at the back.
Interior characters are untouched. -/
def stripList (l : List Char) : List Char :=
  ((l.dropWhile fun c => c == '/').reverse.dropWhile fun c => c == '/').reverse

/-- Python `s.strip("/")`. -/
def pyStripSlash (s : String) : String :=
  String.mk (stripList s.toList)

/-- Body of `Logger._get_path` as a function of the current value of
`entity_prefix`: if it is non-empty (truthy), return
`f"{entity_prefix}/{path}".strip("/")`, else return `path` unchanged. -/
def resolvePath (pre rel : String) : String :=
  if pre = "" then rel else pyStripSlash (pre ++ "/" ++ rel)

/-- Method `Logger._get_path`. -/
def Logger.getPath (l : Logger) (path : String) : String :=
  resolvePath l.prefixStr path

/-- Forward one record to the sink (`rr.log`), stamping it with the
current timeline coordinates. -/
def rrLog (l : Logger) (path : String) (r : Record) : Logger :=
  { l with sink := l.sink ++ [SinkCall.log path r l.timelines] }

/-- Update the sequence coordinate of one named timeline, leaving the
other timelines unchanged. -/
def setAssoc (m : List (String × Int)) (k : String) (v : Int) : List (String × Int) :=
  match m with
  | [] => [(k, v)]
  | (k0, v0) :: rest => if k0 = k then (k, v) :: rest else (k0, v0) :: setAssoc rest k v

/-- Read the current sequence coordinate of one named timeline. -/
def lookupAssoc (m : List (String × Int)) (k : String) : Option Int :=
  match m with
  | [] => none
  | (k0, v0) :: rest => if k0 = k then some v0 else lookupAssoc rest k

/-- Mutation performed by `rr.set_time(timeline=t, sequence=n)`: the
process-wide time-coordinate state gains coordinate `n` on timeline `t`. -/
def rrSetTime (l : Logger) (timeline : String) (sequence : Int) : Logger :=
  { l with timelines := setAssoc l.timelines timeline sequence }

/-- Constructor `Logger.__init__`: store `application_id`, store
`entity_prefix or ""`, read `spawn_viewer` (default `True`) and
`save_path` from the config, call `rr.init(application_id, spawn=spawn)`,
and call `rr.save(save_path)` only when `save_path` is truthy
(`if save_path:`). -/
def mkLogger (application_id : String) (ep : Option String) (config : Option Config) : Logger :=
  let cfg := config.getD { spawn_viewer := none, save_path := none }
  let spawn := cfg.spawn_viewer.getD true
  let saveCalls : List SinkCall :=
    match cfg.save_path with
    | none => []
    | some p => if p = "" then [] else [SinkCall.save p]
  { application_id := application_id
    prefixStr := pyOr ep
    timelines := []
    sink := SinkCall.init application_id spawn :: saveCalls }

/-- Method `Logger.info`. -/
def Logger.info (l : Logger) (message : String) : Logger :=
  rrLog l (l.getPath "logs/info") (Record.textLog message "INFO")

/-- Method `Logger.warning`. -/
def Logger.warning (l : Logger) (message : String) : Logger :=
  rrLog l (l.getPath "logs/warning") (Record.textLog message "WARN")

/-- Method `Logger.debug`. -/
def Logger.debug (l : Logger) (message : String) : Logger :=
  rrLog l (l.getPath "logs/debug") (Record.textLog message "DEBUG")

/-- Method `Logger.error`. -/
def Logger.error (l : Logger) (message : String) : Logger :=
  rrLog l (l.getPath "logs/error") (Record.textLog message "ERROR")

/-- Method `Logger.critical`. -/
def Logger.critical (l : Logger) (message : String) : Logger :=
  rrLog l (l.getPath "logs/critical") (Record.textLog message "CRITICAL")

/-- Method `Logger.log_scalar`: when `step` is given, first set the
sequence coordinate of the "step" timeline, then forward one scalar
record at the resolved path; when `step` is absent, only forward the
record. -/
def Logger.log_scalar (l : Logger) (path : String) (value : Float) (step : Option Int) : Logger :=
  let l1 := match step with
    | some n => rrSetTime l "step" n
    | none => l
  rrLog l1 (l1.getPath path) (Record.scalars value)

/-- Method `Logger.set_time_sequence`. -/
def Logger.set_time_sequence (l : Logger) (timeline : String) (step : Int) : Logger :=
  rrSetTime l timeline step

/-- Entry half of the context manager `Logger.context`: snapshot is the
old value of `entity_prefix` (taken by the caller), and the new value is
`f"{old}/{path_prefix}"` when the old value is truthy, else just the
given scope name. -/
def contextEnter (l : Logger) (p : String) : Logger :=
  { l with prefixStr := if l.prefixStr = "" then p else l.prefixStr ++ "/" ++ p }

/-- Restoration performed by the `finally` block of `Logger.context`:
`self.entity_prefix = old_prefix`. -/
def contextExit (l : Logger) (old : String) : Logger :=
  { l with prefixStr := old }

/-- Whole `with logger.context(p): body` statement.  The body either
finishes normally with a final state, or raises an error carrying the
state at the moment of the raise; the `finally` block restores the saved
value of `entity_prefix` on both exit paths before the error (if any)
propagates.  An early `return` from the body is a normal exit of the
`with` block and is covered by the `Except.ok` branch. -/
def contextRun {ε : Type} (l : Logger) (p : String)
    (body : Logger → Except (ε × Logger) Logger) : Except (ε × Logger) Logger :=
  let old := l.prefixStr
  match body (contextEnter l p) with
  | Except.ok l2 => Except.ok (contextExit l2 old)
  | Except.error (e, l2) => Except.error (e, contextExit l2 old)

/-- Dictionary key as seen by `json.dumps`.  Python requires keys to be
basic types; `bad r` is a key of a non-basic type (with textual form `r`),
which makes `json.dumps` raise `TypeError` even when a `default` hook is
installed (the hook applies to values only). -/
inductive JKey where
  | str0 (v : String)
  | bad (r : String)

/-- Value stored in the dictionary passed to `log_dict`.  `jother r` is a
value that is not natively JSON-serializable; `r` is its default textual
representation (`str(value)`), which is what `default=str` produces. -/
inductive JVal where
  | jstr (v : String)
  | jint (v : Int)
  | jbool (v : Bool)
  | jnull
  | jarr (vs : List JVal)
  | jobj (fields : List (JKey × JVal))
  | jother (r : String)

/-- JSON string rendering (escaping of special characters elided: the
serializer is an external collaborator and its exact text is not
load-bearing, per the design notes of the spec). -/
def jquote (s : String) : String := "\"" ++ s ++ "\""

mutual

/-- Model of the external `json.dumps(value, default=str)` on one value:
a non-serializable value is rendered through its default textual
representation; serialization of a dictionary fails when it holds a
non-basic key.  Indentation produced by `indent=2` is elided as
non-load-bearing whitespace. -/
def dumpsVal : JVal → Except Unit String
  | JVal.jstr v => Except.ok (jquote v)
  | JVal.jint v => Except.ok (toString v)
  | JVal.jbool true => Except.ok "true"
  | JVal.jbool false => Except.ok "false"
  | JVal.jnull => Except.ok "null"
  | JVal.jother r => Except.ok (jquote r)
  | JVal.jarr vs =>
    match dumpsList vs with
    | Except.ok parts => Except.ok ("[" ++ String.intercalate ", " parts ++ "]")
    | Except.error e => Except.error e
  | JVal.jobj fs =>
    match dumpsFields fs with
    | Except.ok parts => Except.ok ("\x7b" ++ String.intercalate ", " parts ++ "\x7d")
    | Except.error e => Except.error e

/-- Serialize the elements of a JSON array in order, propagating the
first failure. -/
def dumpsList : List JVal → Except Unit (List String)
  | [] => Except.ok []
  | v :: vs =>
    match dumpsVal v, dumpsList vs with
    | Except.ok s, Except.ok rest => Except.ok (s :: rest)
    | Except.error e, _ => Except.error e
    | _, Except.error e => Except.error e

/-- Serialize the entries of a JSON object in order; a non-basic key
raises `TypeError` (the `default` hook does not apply to keys). -/
def dumpsFields : List (JKey × JVal) → Except Unit (List String)
  | [] => Except.ok []
  | (JKey.str0 k, v) :: fs =>
    match dumpsVal v, dumpsFields fs with
    | Except.ok s, Except.ok rest => Except.ok ((jquote k ++ ": " ++ s) :: rest)
    | Except.error e, _ => Except.error e
    | _, Except.error e => Except.error e
  | (JKey.bad _, _) :: _ => Except.error ()

end

/-- Top-level `json.dumps(dictionary, indent=2, default=str)`: the
argument of `log_dict` is a dictionary, so the outermost form is an
object. -/
def dumpsObj (fs : List (JKey × JVal)) : Except Unit String :=
  match dumpsFields fs with
  | Except.ok parts => Except.ok ("\x7b" ++ String.intercalate ", " parts ++ "\x7d")
  | Except.error e => Except.error e

/-- Python textual form of a dictionary key, as it appears inside
`str(dictionary)`. -/
def pyReprKey : JKey → String
  | JKey.str0 s => "\x27" ++ s ++ "\x27"
  | JKey.bad r => r

mutual

/-- Python textual form of a value, as it appears inside
`str(dictionary)` (the fallback taken when `json.dumps` raises). -/
def pyReprVal : JVal → String
  | JVal.jstr v => "\x27" ++ v ++ "\x27"
  | JVal.jint v => toString v
  | JVal.jbool true => "True"
  | JVal.jbool false => "False"
  | JVal.jnull => "None"
  | JVal.jother r => r
  | JVal.jarr vs => "[" ++ String.intercalate ", " (pyReprList vs) ++ "]"
  | JVal.jobj fs => "\x7b" ++ String.intercalate ", " (pyReprFields fs) ++ "\x7d"

/-- Textual forms of the elements of a list. -/
def pyReprList : List JVal → List String
  | [] => []
  | v :: vs => pyReprVal v :: pyReprList vs

/-- Textual forms of the entries of a dictionary. -/
def pyReprFields : List (JKey × JVal) → List String
  | [] => []
  | (k, v) :: fs => (pyReprKey k ++ ": " ++ pyReprVal v) :: pyReprFields fs

end

/-- Python `str(dictionary)`: the brace-delimited listing of entries. -/
def pyStrDict (fs : List (JKey × JVal)) : String :=
  "\x7b" ++ String.intercalate ", " (pyReprFields fs) ++ "\x7d"

/-- Content computed by the `try`/`except` of `Logger.log_dict`: the
JSON text when serialization succeeds, else `str(dictionary)`. -/
def logDictContent (d : List (JKey × JVal)) : String :=
  match dumpsObj d with
  | Except.ok c => c
  | Except.error _ => pyStrDict d

/-- Method `Logger.log_dict`: serialize with fallback, then forward one
document record with media type "text/markdown" at the resolved path. -/
def Logger.log_dict (l : Logger) (path : String) (dictionary : List (JKey × JVal)) : Logger :=
  rrLog l (l.getPath path) (Record.textDocument (logDictContent dictionary) "text/markdown")

/-- Concrete session used to instantiate universally quantified theorems
at explicit inputs. -/
def LW : Logger :=
  { application_id := "app", prefixStr := "out", timelines := [], sink := [] }

/-- Character-wise uppercasing of a method name, used to compare a
severity level against the logging method that produced it. -/
def upper (s : String) : String := String.mk (s.toList.map Char.toUpper)

/-- Recognizer for sink-initialization calls. -/
def isInit : SinkCall → Bool
  | SinkCall.init _ _ => true
  | _ => false

/-- The spawn flag the constructor reads: `config.get("spawn_viewer", True)`. -/
def spawnViewerOf (config : Option Config) : Bool :=
  (config.getD { spawn_viewer := none, save_path := none }).spawn_viewer.getD true

/-- The save path the constructor reads: `config.get("save_path")`. -/
def savePathOf (config : Option Config) : Option String :=
  (config.getD { spawn_viewer := none, save_path := none }).save_path

section Lemmas

/-- The characters dropped from the front by `strip` are all slashes. -/
theorem takeWhile_slash_eq_replicate (l : List Char) :
    l.takeWhile (fun c => c == '/') =
      List.replicate (l.takeWhile (fun c => c == '/')).length '/' := by
  apply List.eq_replicate_length.mpr
  intro b hb
  simpa using List.mem_takeWhile_imp hb

/-- Dropping the leading run of slashes leaves a list that does not start
with a slash. -/
theorem head?_dropWhile_slash (l : List Char) :
    (l.dropWhile fun c => c == '/').head? ≠ some '/' := by
  induction l with
  | nil => simp
  | cons a t ih =>
    by_cases h : a = '/'
    · simpa [List.dropWhile_cons, h] using ih
    · simp [List.dropWhile_cons, h]

/-- Any list splits as a leading run of slashes followed by its
slash-dropped remainder. -/
theorem exists_replicate_append_dropWhile (l : List Char) :
    ∃ a, l = List.replicate a '/' ++ (l.dropWhile fun c => c == '/') := by
  refine ⟨(l.takeWhile fun c => c == '/').length, ?_⟩
  conv_lhs => rw [← List.takeWhile_append_dropWhile (p := fun c => c == '/') (l := l)]
  rw [← takeWhile_slash_eq_replicate]

/-- Python `strip("/")` removes exactly a run of slashes at each end, and
what remains neither starts nor ends with a slash. -/
theorem stripList_spec (l : List Char) :
    ∃ a b, l = List.replicate a '/' ++ stripList l ++ List.replicate b '/' ∧
      (stripList l).head? ≠ some '/' ∧ (stripList l).getLast? ≠ some '/' := by
  obtain ⟨a, ha⟩ := exists_replicate_append_dropWhile l
  set m := l.dropWhile fun c => c == '/' with hm
  obtain ⟨b, hb⟩ := exists_replicate_append_dropWhile m.reverse
  set r := m.reverse.dropWhile fun c => c == '/' with hr
  have hstrip : stripList l = r.reverse := rfl
  have hmr : m = r.reverse ++ List.replicate b '/' := by
    have := congrArg List.reverse hb
    simpa [List.reverse_append, List.reverse_replicate] using this
  refine ⟨a, b, ?_, ?_, ?_⟩
  · rw [hstrip, ha, hmr, List.append_assoc]
  · rw [hstrip]
    intro hc
    apply head?_dropWhile_slash l
    rw [← hm, hmr, List.head?_append, hc]
    rfl
  · rw [hstrip, List.getLast?_reverse]
    exact head?_dropWhile_slash m.reverse

/-- Reading back the timeline coordinate just set. -/
theorem lookupAssoc_setAssoc (m : List (String × Int)) (k : String) (v : Int) :
    lookupAssoc (setAssoc m k v) k = some v := by
  induction m with
  | nil => simp [setAssoc, lookupAssoc]
  | cons a t ih =>
    obtain ⟨k0, v0⟩ := a
    by_cases h : k0 = k
    · simp [setAssoc, lookupAssoc, h]
    · simp [setAssoc, lookupAssoc, h, ih]

/-- Coercion fact: building a string from a character list is the inverse
of `toList`. -/
theorem toList_mk (l : List Char) : (String.mk l).toList = l := rfl

/-- A string of the shape brace-middle-brace starts with the brace. -/
theorem head?_brace (s t : String) :
    ("\x7b" ++ s ++ t).toList.head? = some '\x7b' := rfl

/-- A string whose first character exists is non-empty. -/
theorem ne_empty_of_head (s : String) (c : Char) (h : s.toList.head? = some c) :
    s ≠ "" := by
  intro he
  subst he
  simp at h

/-- The fallback and the serialized form both start with a brace, so the
forwarded document content always does. -/
theorem logDictContent_head (d : List (JKey × JVal)) :
    (logDictContent d).toList.head? = some '\x7b' := by
  unfold logDictContent dumpsObj
  cases dumpsFields d with
  | ok parts => exact head?_brace _ _
  | error e =>
    show (pyStrDict d).toList.head? = some '\x7b'
    unfold pyStrDict
    exact head?_brace _ _

/-- A path of the shape left-slash-right is never the empty string. -/
theorem append_slash_ne_empty (s t : String) : s ++ "/" ++ t ≠ "" := by
  intro h
  have hlen := congrArg String.length h
  simp [String.length_append] at hlen
  exact absurd hlen.1.2 (by decide)

/-- One init call appears in the constructor output, with the
application id and the defaulted spawn flag. -/
theorem mkLogger_filter_init (app : String) (ep : Option String) (config : Option Config) :
    (mkLogger app ep config).sink.filter isInit = [SinkCall.init app (spawnViewerOf config)] := by
  cases config with
  | none => simp [mkLogger, isInit, spawnViewerOf, List.filter]
  | some cfg =>
    cases hs : cfg.save_path with
    | none => simp [mkLogger, isInit, spawnViewerOf, hs, List.filter]
    | some p =>
      by_cases hp : p = ""
      · simp [mkLogger, isInit, spawnViewerOf, hs, hp, List.filter]
      · simp [mkLogger, isInit, spawnViewerOf, hs, hp, List.filter]

/-- A persist call appears in the constructor output exactly for a
present, non-empty save path. -/
theorem mkLogger_save_mem (app : String) (ep : Option String) (config : Option Config)
    (p : String) :
    SinkCall.save p ∈ (mkLogger app ep config).sink ↔
      (savePathOf config = some p ∧ p ≠ "") := by
  cases config with
  | none => simp [mkLogger, savePathOf]
  | some cfg =>
    cases hs : cfg.save_path with
    | none => simp [mkLogger, savePathOf, hs]
    | some q =>
      by_cases hq : q = ""
      · simp [mkLogger, savePathOf, hs, hq]
        exact fun h => h.symm
      · constructor
        · intro hmem
          simp [mkLogger, hs, hq] at hmem
          subst hmem
          exact ⟨by simp [savePathOf, hs], hq⟩
        · intro ⟨hsp, hp⟩
          have : q = p := by simpa [savePathOf, hs] using hsp
          subst this
          simp [mkLogger, hs, hq]

end Lemmas

/-- Claim C1: for every session state and every scope entered via
`context(path_prefix)`, the current value of `entity_prefix` is restored
to its exact pre-entry value on every exit path from the scope body: on
normal completion (which includes an early return from inside the `with`
block) and when the body raises or propagates an error; a probe call to
path composition after catching the error observes the pre-entry value. -/
theorem context_restores_on_all_exits {ε : Type} (l : Logger) (p : String)
    (body : Logger → Except (ε × Logger) Logger) :
    (∀ l2, contextRun l p body = Except.ok l2 →
      l2.prefixStr = l.prefixStr ∧ ∀ q, l2.getPath q = l.getPath q) ∧
    (∀ e l2, contextRun l p body = Except.error (e, l2) →
      l2.prefixStr = l.prefixStr ∧ ∀ q, l2.getPath q = l.getPath q) := by
  cases hb : body (contextEnter l p) with
  | ok l3 =>
    constructor
    · intro l2 h
      have hrun : contextRun l p body = Except.ok (contextExit l3 l.prefixStr) := by
        simp [contextRun, hb]
      rw [hrun] at h
      injection h with h
      subst h
      exact ⟨rfl, fun q => rfl⟩
    · intro e l2 h
      have hrun : contextRun l p body = Except.ok (contextExit l3 l.prefixStr) := by
        simp [contextRun, hb]
      rw [hrun] at h
      cases h
  | error el =>
    obtain ⟨e0, l3⟩ := el
    constructor
    · intro l2 h
      have hrun : contextRun l p body = Except.error (e0, contextExit l3 l.prefixStr) := by
        simp [contextRun, hb]
      rw [hrun] at h
      cases h
    · intro e l2 h
      have hrun : contextRun l p body = Except.error (e0, contextExit l3 l.prefixStr) := by
        simp [contextRun, hb]
      rw [hrun] at h
      injection h with h
      injection h with h1 h2
      subst h2
      exact ⟨rfl, fun q => rfl⟩

/-- Witness for C1: a body that raises immediately still leaves the
restored pre-entry value observable after the error is caught. -/
theorem context_restores_on_all_exits_witness :
    Logger.prefixStr (contextExit (contextEnter LW "q") (Logger.prefixStr LW)) =
      Logger.prefixStr LW :=
  ((context_restores_on_all_exits LW "q" (fun s => Except.error ((), s))).2 ()
    (contextExit (contextEnter LW "q") (Logger.prefixStr LW)) rfl).1

/-- Claim C2: path composition returns the relative path unchanged when
the current value of `entity_prefix` is empty; otherwise it returns the
concatenation joined by one slash with the leading and trailing runs of
slash characters stripped (the remainder neither starts nor ends with a
slash, and the dropped characters are exactly slash runs at the two
ends); the result is a function of the state and the argument only, so
two calls in the same state agree. -/
theorem resolve_path_characterization (l : Logger) (p : String) :
    (l.prefixStr = "" → l.getPath p = p) ∧
    (l.prefixStr ≠ "" →
      ∃ a b, (l.prefixStr ++ "/" ++ p).toList =
          List.replicate a '/' ++ (l.getPath p).toList ++ List.replicate b '/' ∧
        (l.getPath p).toList.head? ≠ some '/' ∧
        (l.getPath p).toList.getLast? ≠ some '/') ∧
    (∀ l2 : Logger, l2.prefixStr = l.prefixStr → l2.getPath p = l.getPath p) := by
  refine ⟨?_, ?_, ?_⟩
  · intro h
    simp [Logger.getPath, resolvePath, h]
  · intro h
    have hg : l.getPath p = String.mk (stripList (l.prefixStr ++ "/" ++ p).toList) := by
      simp [Logger.getPath, resolvePath, h, pyStripSlash]
    obtain ⟨a, b, hd, hh, hl⟩ := stripList_spec (l.prefixStr ++ "/" ++ p).toList
    exact ⟨a, b, by rw [hg, toList_mk]; exact hd,
      by rw [hg, toList_mk]; exact hh, by rw [hg, toList_mk]; exact hl⟩
  · intro l2 h
    simp [Logger.getPath, h]

/-- Witness for C2: the non-empty branch instantiated at the prefix "out"
and the relative path "/x/". -/
theorem resolve_path_characterization_witness :
    ∃ a b, (Logger.prefixStr LW ++ "/" ++ "/x/").toList =
        List.replicate a '/' ++ (Logger.getPath LW "/x/").toList ++ List.replicate b '/' ∧
      (Logger.getPath LW "/x/").toList.head? ≠ some '/' ∧
      (Logger.getPath LW "/x/").toList.getLast? ≠ some '/' :=
  (resolve_path_characterization LW "/x/").2.1 (by decide)

/-- Claim C3 counterexample: with the current value "a/b/" (trailing
slash) and the relative path "/c" (leading slash), composition returns
"a/b///c", not "a/b/c": Python strip removes separator characters only at
the two ends of the concatenation, so the three interior separators
survive. -/
theorem stray_separators_counterexample :
    Logger.getPath (mkLogger "app" (some "a/b/") none) "/c" = "a/b///c" ∧
    "a/b///c" ≠ "a/b/c" := by
  exact ⟨by decide, by decide⟩

/-- Claim C3 amended: for the prefix "a/b/" and the relative path "/c"
the composed path is "a/b///c": normalization strips stray separators
from the two ends of the concatenation only, leaving interior repeated
separators in place. -/
theorem stray_separators_amended :
    Logger.getPath (mkLogger "app" (some "a/b/") none) "/c" = "a/b///c" := by
  decide

/-- Claim C4: entering `context(path_prefix)` sets the current value to
old/new when the old value is non-empty and to the new segment alone when
it is empty; nested scopes compose by concatenation, exiting the inner
scope restores outer/a, and exiting the outer scope restores the outer
value. -/
theorem context_enter_sets_and_nests (l : Logger) (a b : String) :
    (l.prefixStr = "" → (contextEnter l a).prefixStr = a) ∧
    (l.prefixStr ≠ "" →
      (contextEnter l a).prefixStr = l.prefixStr ++ "/" ++ a ∧
      (contextEnter (contextEnter l a) b).prefixStr = l.prefixStr ++ "/" ++ a ++ "/" ++ b ∧
      (∀ l2, contextRun (ε := Unit) (contextEnter l a) b Except.ok = Except.ok l2 →
        l2.prefixStr = l.prefixStr ++ "/" ++ a) ∧
      (∀ l2, contextRun (ε := Unit) l a (fun l1 => contextRun l1 b Except.ok) = Except.ok l2 →
        l2.prefixStr = l.prefixStr)) := by
  refine ⟨?_, ?_⟩
  · intro h
    simp [contextEnter, h]
  · intro h
    have h1 : (contextEnter l a).prefixStr = l.prefixStr ++ "/" ++ a := by
      simp [contextEnter, h]
    have hne : (contextEnter l a).prefixStr ≠ "" := by
      rw [h1]
      exact append_slash_ne_empty _ _
    have h2 : (contextEnter (contextEnter l a) b).prefixStr =
        l.prefixStr ++ "/" ++ a ++ "/" ++ b := by
      show (if (contextEnter l a).prefixStr = "" then b
        else (contextEnter l a).prefixStr ++ "/" ++ b) = _
      rw [h1, if_neg (append_slash_ne_empty l.prefixStr a)]
    refine ⟨h1, h2, ?_, ?_⟩
    · intro l2 hrun
      have : contextRun (ε := Unit) (contextEnter l a) b Except.ok =
          Except.ok (contextExit (contextEnter (contextEnter l a) b)
            ((contextEnter l a).prefixStr)) := rfl
      rw [this] at hrun
      injection hrun with hrun
      subst hrun
      exact h1
    · intro l2 hrun
      have : contextRun (ε := Unit) l a (fun l1 => contextRun l1 b Except.ok) =
          Except.ok (contextExit
            (contextExit (contextEnter (contextEnter l a) b) ((contextEnter l a).prefixStr))
            l.prefixStr) := rfl
      rw [this] at hrun
      injection hrun with hrun
      subst hrun
      rfl

/-- Witness for C4: nested entries from the concrete state with the
value "out" produce out/a/b. -/
theorem context_enter_sets_and_nests_witness :
    Logger.prefixStr (contextEnter (contextEnter LW "a") "b") =
      Logger.prefixStr LW ++ "/" ++ "a" ++ "/" ++ "b" :=
  ((context_enter_sets_and_nests LW "a" "b").2 (by decide)).2.1

/-- Claim C9 counterexample: the state constructed with the entity
prefix "/a/" is reachable, its current value "/a/" starts (and ends) with
a separator, and composing it with "b" yields "a//b", whose segments are
not joined by single separators.  The constructor stores the supplied
value verbatim and composition strips the ends only. -/
theorem prefix_invariant_counterexample :
    (mkLogger "app" (some "/a/") none).prefixStr = "/a/" ∧
    ("/a/").toList.head? = some '/' ∧
    Logger.getPath (mkLogger "app" (some "/a/") none) "b" = "a//b" ∧
    ("a//b").toList = ['a', '/', '/', 'b'] := by
  exact ⟨by decide, by decide, by decide, by decide⟩

/-- Claim C9 amended: in every session state with a non-empty current
value, composing it with any relative path yields a path with no leading
and no trailing separator character; the stored value itself may retain
separators supplied by the caller and interior separator runs are not
collapsed. -/
theorem composed_path_no_edge_separators (l : Logger) (p : String)
    (h : l.prefixStr ≠ "") :
    (l.getPath p).toList.head? ≠ some '/' ∧
    (l.getPath p).toList.getLast? ≠ some '/' := by
  have hg : l.getPath p = String.mk (stripList (l.prefixStr ++ "/" ++ p).toList) := by
    simp [Logger.getPath, resolvePath, h, pyStripSlash]
  obtain ⟨a, b, hd, hh, hl⟩ := stripList_spec (l.prefixStr ++ "/" ++ p).toList
  exact ⟨by rw [hg, toList_mk]; exact hh, by rw [hg, toList_mk]; exact hl⟩

/-- Witness for C9 amended: instantiated at the concrete state with the
value "out" and the relative path "x". -/
theorem composed_path_no_edge_separators_witness :
    (Logger.getPath LW "x").toList.head? ≠ some '/' ∧
    (Logger.getPath LW "x").toList.getLast? ≠ some '/' :=
  composed_path_no_edge_separators LW "x" (by decide)

/-- Claim C5 counterexample: the warning method forwards its record with
severity level "WARN", which is not the method name "warning" and not its
uppercasing "WARNING"; so the level of this method does not match the
method name (the other four methods carry the uppercased name). -/
theorem warning_level_counterexample :
    (LW.warning "m").sink =
      [SinkCall.log "out/logs/warning" (Record.textLog "m" "WARN") []] ∧
    "WARN" ≠ "WARNING" ∧ "WARN" ≠ "warning" := by
  exact ⟨rfl, by decide, by decide⟩

/-- Claim C5 amended: each of the five text methods forwards exactly one
text record to the sink at the path logs/level-name resolved through path
composition; info, debug, error and critical tag it with the uppercased
method name, while warning tags it with the abbreviation "WARN". -/
theorem text_methods_forward_one_record (l : Logger) (m : String) :
    (l.info m).sink =
      l.sink ++ [SinkCall.log (l.getPath "logs/info") (Record.textLog m "INFO") l.timelines] ∧
    (l.warning m).sink =
      l.sink ++ [SinkCall.log (l.getPath "logs/warning") (Record.textLog m "WARN") l.timelines] ∧
    (l.debug m).sink =
      l.sink ++ [SinkCall.log (l.getPath "logs/debug") (Record.textLog m "DEBUG") l.timelines] ∧
    (l.error m).sink =
      l.sink ++ [SinkCall.log (l.getPath "logs/error") (Record.textLog m "ERROR") l.timelines] ∧
    (l.critical m).sink =
      l.sink ++
        [SinkCall.log (l.getPath "logs/critical") (Record.textLog m "CRITICAL") l.timelines] ∧
    "INFO" = upper "info" ∧
    "DEBUG" = upper "debug" ∧
    "ERROR" = upper "error" ∧
    "CRITICAL" = upper "critical" ∧
    "WARN" ≠ upper "warning" := by
  exact ⟨rfl, rfl, rfl, rfl, rfl, by decide, by decide, by decide, by decide, by decide⟩

/-- Claim C6: with a step argument, log_scalar first sets the sequence
coordinate of the "step" timeline and then forwards one scalar record at
the resolved path, stamped with the updated coordinates; without a step
argument it performs no timeline mutation and the record is stamped with
the unchanged coordinates; in particular after setting step 5, a text log
call and a second scalar call without a step argument still run with the
"step" coordinate 5. -/
theorem log_scalar_timeline_persistence (l : Logger) (p1 p2 : String)
    (v1 v2 : Float) (n : Int) (m : String) :
    (l.log_scalar p1 v1 (some n)).timelines = setAssoc l.timelines "step" n ∧
    (l.log_scalar p1 v1 (some n)).sink =
      l.sink ++ [SinkCall.log (l.getPath p1) (Record.scalars v1)
        (setAssoc l.timelines "step" n)] ∧
    (l.log_scalar p2 v2 none).timelines = l.timelines ∧
    (l.log_scalar p2 v2 none).sink =
      l.sink ++ [SinkCall.log (l.getPath p2) (Record.scalars v2) l.timelines] ∧
    (((l.log_scalar p1 v1 (some 5)).info m).log_scalar p2 v2 none).sink =
      l.sink ++
        [SinkCall.log (l.getPath p1) (Record.scalars v1) (setAssoc l.timelines "step" 5),
         SinkCall.log (l.getPath "logs/info") (Record.textLog m "INFO")
           (setAssoc l.timelines "step" 5),
         SinkCall.log (l.getPath p2) (Record.scalars v2) (setAssoc l.timelines "step" 5)] ∧
    lookupAssoc (setAssoc l.timelines "step" 5) "step" = some 5 := by
  refine ⟨rfl, rfl, rfl, rfl, ?_, lookupAssoc_setAssoc l.timelines "step" 5⟩
  simp [Logger.log_scalar, Logger.info, rrLog, rrSetTime, Logger.getPath, List.append_assoc]

/-- Claim C7: log_dict never raises from serialization: the content is
the JSON text in which a non-serializable value is rendered through its
default textual representation (the default hook), any other
serialization failure falls back to the default textual representation
of the whole dictionary, and the result is always forwarded as one
non-empty document record with declared content type "text/markdown". -/
theorem log_dict_never_fails (l : Logger) (path : String) (d : List (JKey × JVal)) :
    (l.log_dict path d).sink =
      l.sink ++ [SinkCall.log (l.getPath path)
        (Record.textDocument (logDictContent d) "text/markdown") l.timelines] ∧
    logDictContent d ≠ "" ∧
    (∀ r, dumpsVal (JVal.jother r) = Except.ok (jquote r)) ∧
    (∀ e, dumpsObj d = Except.error e → logDictContent d = pyStrDict d) := by
  refine ⟨rfl, ne_empty_of_head _ _ (logDictContent_head d), fun r => rfl, ?_⟩
  intro e h
  simp [logDictContent, h]

/-- Witness for C7: a dictionary with a non-basic key defeats the
serializer, and the forwarded content is then the default textual form of
the whole dictionary. -/
theorem log_dict_never_fails_witness :
    logDictContent [(JKey.bad "k", JVal.jnull)] = pyStrDict [(JKey.bad "k", JVal.jnull)] :=
  ((log_dict_never_fails LW "p" [(JKey.bad "k", JVal.jnull)]).2.2.2) () rfl

/-- Claim C8 counterexample: a configuration in which save_path is
present with the value "" leads to no persist instruction, although the
key is present: the constructor tests truthiness, not presence. -/
theorem save_path_truthiness_counterexample :
    savePathOf (some { spawn_viewer := none, save_path := some "" }) = some "" ∧
    (mkLogger "app" none (some { spawn_viewer := none, save_path := some "" })).sink =
      [SinkCall.init "app" true] ∧
    ∀ p, SinkCall.save p ∉
      (mkLogger "app" none (some { spawn_viewer := none, save_path := some "" })).sink := by
  refine ⟨rfl, rfl, ?_⟩
  intro p h
  simp [mkLogger] at h

/-- Claim C8 amended: the constructor initializes the sink exactly once
per session with application_id and the spawn_viewer configuration value
(defaulting to true when absent), and issues one persist instruction with
the configured path if and only if save_path is present with a non-empty
(truthy) value. -/
theorem constructor_sink_calls (app : String) (ep : Option String) (config : Option Config) :
    (mkLogger app ep config).sink.filter isInit = [SinkCall.init app (spawnViewerOf config)] ∧
    (∀ p, SinkCall.save p ∈ (mkLogger app ep config).sink ↔
      (savePathOf config = some p ∧ p ≠ "")) :=
  ⟨mkLogger_filter_init app ep config, fun p => mkLogger_save_mem app ep config p⟩

/-- Witness for C8 amended: a present non-empty save path does produce
the persist instruction. -/
theorem constructor_sink_calls_witness :
    SinkCall.save "out.rrd" ∈
      (mkLogger "app" none (some { spawn_viewer := none, save_path := some "out.rrd" })).sink :=
  ((constructor_sink_calls "app" none
    (some { spawn_viewer := none, save_path := some "out.rrd" })).2 "out.rrd").mpr
    ⟨rfl, by decide⟩

/-- Claim C10: the constructor validates nothing: it is total for every
application id (including the empty string) and forwards it verbatim in
the single sink-initialization call; passing the entity prefix as an
absent value and passing it as the empty string produce identical
sessions, whose current value is empty. -/
theorem constructor_no_validation (app : String) (config : Option Config) :
    mkLogger app none config = mkLogger app (some "") config ∧
    (mkLogger app none config).prefixStr = "" ∧
    (mkLogger app none config).sink.filter isInit =
      [SinkCall.init app (spawnViewerOf config)] :=
  ⟨rfl, rfl, mkLogger_filter_init app none config⟩

end Chronicle
